import Mathlib

/-!
Shallow embedding of the indicator core of the `bubble` package
(`src/bubble/indicators.py`).

Modelling conventions:
* A price/return panel (pandas `DataFrame`) is a list of dated rows
  `List (ℕ × List ℚ)`: the natural number is the date label, the list of
  rationals the row of cells.  A `Series` is `List (ℕ × ℚ)`.
* Floating-point values are idealised as exact rationals.  The IEEE
  not-a-number value (pandas missing value) is modelled by `Option ℚ`
  with `none` for an undefined cell; division by zero is modelled as
  undefined (this conflates IEEE infinities with NaN; every theorem and
  counterexample below only exercises the `0/0` case, where both give
  NaN, or nonzero denominators).
* `np.log` and `np.sqrt` have no exact rational counterpart, so the
  functions that use them are parametrised over `lnq`/`sqrtq : ℚ → ℚ`
  standing for the (finite, positive-argument) values of `log`/`sqrt`;
  theorems quantify over these parameters, adding only hypotheses that
  real square roots satisfy (e.g. `sqrtq v * sqrtq v = v` on the
  variances actually encountered).
* Python exceptions are modelled by `PyError`; a function that can
  `raise` returns `Except PyError α`.
-/

namespace Bubble

/-- The Python exception classes raised across the package
(`ValueError`, `TypeError`, `KeyError`, `RuntimeError`), each carrying
its message. -/
inductive PyError where
  | valueError (msg : String)
  | typeError (msg : String)
  | keyError (msg : String)
  | runtimeError (msg : String)
  deriving DecidableEq, Repr

/-- The exception class alone — what a Python `except ValueError:`
clause can discriminate on.  Messages are invisible to `except`. -/
inductive PyKind where
  | valueError
  | typeError
  | keyError
  | runtimeError
  deriving DecidableEq, Repr

instance {ε α : Type} [DecidableEq ε] [DecidableEq α] : DecidableEq (Except ε α)
  | .error a, .error b => decidable_of_iff (a = b) (by simp)
  | .error _, .ok _ => .isFalse (by simp)
  | .ok _, .error _ => .isFalse (by simp)
  | .ok a, .ok b => decidable_of_iff (a = b) (by simp)

def PyError.kind : PyError → PyKind
  | .valueError _ => .valueError
  | .typeError _ => .typeError
  | .keyError _ => .keyError
  | .runtimeError _ => .runtimeError

/-- The exception class of the error result, if the computation failed. -/
def errKind {α : Type} : Except PyError α → Option PyKind
  | .error e => some e.kind
  | .ok _ => none

/-- `pd.DataFrame.empty`: true when either axis has length zero. -/
def pdEmptyF (f : List (ℕ × List ℚ)) : Bool :=
  f.isEmpty || f.all (fun r => r.2.isEmpty)

/-- `df.shape[1]`: the number of columns of a (rectangular) frame. -/
def ncols (f : List (ℕ × List ℚ)) : ℕ :=
  ((f.head?.map (fun r => r.2.length)).getD 0)

/-- Division as floats perform it, with an undefined (`none`) result on a
zero denominator (`0/0` is IEEE NaN; nonzero numerators over zero are
infinities, which no statement below exercises). -/
def divNaN (a b : ℚ) : Option ℚ :=
  if b = 0 then none else some (a / b)

/-- NaN-propagating division of two possibly-undefined values. -/
def divO (a b : Option ℚ) : Option ℚ :=
  a.bind (fun x => b.bind (fun y => divNaN x y))

/-- One cell of `close.pct_change()`: `cur / prev - 1`. -/
def pctCell (prev cur : ℚ) : Option ℚ :=
  (divNaN cur prev).map (fun x => x - 1)

/-- One cell of `np.log(close / close.shift(1))`: defined (finite) exactly
when the price ratio is positive, in which case it is `lnq` of the ratio. -/
def logCell (lnq : ℚ → ℚ) (prev cur : ℚ) : Option ℚ :=
  if 0 < prev ∧ 0 < cur then some (lnq (cur / prev)) else none

/-- Row-wise differencing shared by `pct_change`/log returns: the first
row becomes entirely undefined, row `i ≥ 1` applies `cell` to the cells
of rows `i-1` and `i`. -/
def diffRows (cell : ℚ → ℚ → Option ℚ) :
    List (ℕ × List ℚ) → List (ℕ × List (Option ℚ))
  | [] => []
  | (d0, r0) :: rest =>
      (d0, r0.map (fun _ => (none : Option ℚ))) ::
        List.zipWith (fun prev cur => (cur.1, List.zipWith cell prev.2 cur.2))
          ((d0, r0) :: rest) rest

/-- `DataFrame.dropna()`: keep only the rows with every cell defined. -/
def dropna (f : List (ℕ × List (Option ℚ))) : List (ℕ × List ℚ) :=
  (f.filter (fun r => r.2.all Option.isSome)).map
    (fun r => (r.1, r.2.filterMap id))

/-- `calculate_returns` (indicators.py, lines 5–32). -/
def calculate_returns (lnq : ℚ → ℚ) (close : List (ℕ × List ℚ))
    (log_returns : Bool) : Except PyError (List (ℕ × List ℚ)) :=
  if pdEmptyF close then
    .error (.valueError "Input financial data is empty.")
  else
    .ok (dropna (diffRows (if log_returns then logCell lnq else pctCell) close))

/-- Series-level differencing for `calculate_index_returns`. -/
def diffSeries (cell : ℚ → ℚ → Option ℚ) :
    List (ℕ × ℚ) → List (ℕ × Option ℚ)
  | [] => []
  | (d0, v0) :: rest =>
      (d0, (none : Option ℚ)) ::
        List.zipWith (fun prev cur => (cur.1, cell prev.2 cur.2))
          ((d0, v0) :: rest) rest

/-- `Series.dropna()`. -/
def dropnaS (s : List (ℕ × Option ℚ)) : List (ℕ × ℚ) :=
  s.filterMap (fun r => r.2.map (fun v => (r.1, v)))

/-- `calculate_index_returns` (indicators.py, lines 35–62). -/
def calculate_index_returns (lnq : ℚ → ℚ) (index : List (ℕ × ℚ))
    (log_returns : Bool) : Except PyError (List (ℕ × ℚ)) :=
  if index.isEmpty then
    .error (.valueError "Index level series is empty.")
  else
    .ok (dropnaS (diffSeries (if log_returns then logCell lnq else pctCell) index))

/-- `Series.mean()` over a row of possibly-undefined values: pandas skips
NaN cells and is NaN on an all-NaN row. -/
def meanO (xs : List (Option ℚ)) : Option ℚ :=
  let v := xs.filterMap id
  if v.isEmpty then none else some (v.sum / (v.length : ℚ))

/-- `build_equal_weight_index` (indicators.py, lines 65–88): divide each
column by its first-row value, then take the row-wise (NaN-skipping)
mean. -/
def build_equal_weight_index (returns : List (ℕ × List ℚ)) :
    Except PyError (List (ℕ × Option ℚ)) :=
  if pdEmptyF returns then
    .error (.valueError "Input financial data is empty.")
  else
    let first := (returns.head?.map (fun r => r.2)).getD []
    .ok (returns.map (fun r => (r.1, meanO (List.zipWith divNaN r.2 first))))

/-- The date label of row `i` (0 when out of range; only used in range). -/
def dateAt {α : Type} (f : List (ℕ × α)) (i : ℕ) : ℕ :=
  ((f.get? i).map Prod.fst).getD 0

/-- Column `j` of a frame (pads short rows with 0; frames are used
rectangularly). -/
def colAt (f : List (ℕ × List ℚ)) (j : ℕ) : List ℚ :=
  f.map (fun r => r.2.getD j 0)

/-- The trailing window of size `w` ending at position `i` (inclusive). -/
def windowSlice {α : Type} (w i : ℕ) (xs : List α) : List α :=
  (xs.take (i + 1)).drop (i + 1 - w)

/-- Arithmetic mean of a list of rationals. -/
def listMean (xs : List ℚ) : ℚ :=
  xs.sum / (xs.length : ℚ)

/-- Sample variance (`ddof=1`, as pandas `std` uses). -/
def svar (xs : List ℚ) : ℚ :=
  (xs.map (fun x => (x - listMean xs) ^ 2)).sum / ((xs.length : ℚ) - 1)

/-- Sample covariance (`ddof=1`). -/
def scov (xs ys : List ℚ) : ℚ :=
  (List.zipWith (fun x y => (x - listMean xs) * (y - listMean ys)) xs ys).sum /
    ((xs.length : ℚ) - 1)

/-- Sample standard deviation of a window: NaN on fewer than two
observations (`ddof=1` divides by zero there), else `sqrt` of the sample
variance. -/
def stdO (sqrtq : ℚ → ℚ) (xs : List ℚ) : Option ℚ :=
  if xs.length ≤ 1 then none else some (sqrtq (svar xs))

/-- Pearson correlation of two windows, as pandas computes it:
`cov / (std_x * std_y)`, NaN when the denominator vanishes (both
variances and hence the covariance are then 0, i.e. IEEE `0/0`). -/
def corrCell (sqrtq : ℚ → ℚ) (xs ys : List ℚ) : Option ℚ :=
  match stdO sqrtq xs, stdO sqrtq ys with
  | some a, some b => if a * b = 0 then none else some (scov xs ys / (a * b))
  | _, _ => none

/-- Insufficient-data message of `calculate_rolling_volatility` — also
raised, verbatim, by `calculate_rolling_correlation` (source lines
150–154 reuse the volatility wording). -/
def volShortMsg (window : ℕ) : String :=
  s!"Not enough data points to compute rolling volatility with window size {window}."

/-- Insufficient-data message of `calculate_rolling_sharpe`. -/
def sharpeShortMsg (window : ℕ) : String :=
  s!"Not enough data points to compute rolling Sharpe ratio with window size {window}."

/-- `calculate_rolling_volatility` (indicators.py, lines 91–120):
per-column rolling sample standard deviation times `sqrt(252)`, with the
first `window - 1` rows undefined. -/
def calculate_rolling_volatility (sqrtq : ℚ → ℚ) (returns : List (ℕ × List ℚ))
    (window : ℕ) : Except PyError (List (ℕ × List (Option ℚ))) :=
  if pdEmptyF returns then
    .error (.valueError "Input data on returns is empty.")
  else if returns.length < window then
    .error (.valueError (volShortMsg window))
  else
    .ok ((List.range returns.length).map (fun i =>
      (dateAt returns i,
        (List.range (ncols returns)).map (fun j =>
          if window ≤ i + 1 then
            (stdO sqrtq (windowSlice window i (colAt returns j))).map
              (fun s => s * sqrtq 252)
          else none))))

/-- `calculate_rolling_correlation` (indicators.py, lines 123–165): the
full pairwise correlation matrix per window, averaged first over the
block rows (`groupby(level=0).mean()`) and then across columns
(`mean(axis=1)`), both NaN-skipping. -/
def calculate_rolling_correlation (sqrtq : ℚ → ℚ) (returns : List (ℕ × List ℚ))
    (window : ℕ) : Except PyError (List (ℕ × Option ℚ)) :=
  if pdEmptyF returns then
    .error (.valueError "Input data on returns is empty.")
  else if ncols returns < 2 then
    .error (.valueError "At least two columns of stocks are required to compute correlation.")
  else if returns.length < window then
    .error (.valueError (volShortMsg window))
  else
    .ok ((List.range returns.length).map (fun i =>
      (dateAt returns i,
        if window ≤ i + 1 then
          meanO ((List.range (ncols returns)).map (fun j =>
            meanO ((List.range (ncols returns)).map (fun k =>
              corrCell sqrtq (windowSlice window i (colAt returns k))
                (windowSlice window i (colAt returns j))))))
        else none)))

/-- `calculate_rolling_sharpe` (indicators.py, lines 168–206): subtract
the per-period risk-free rate (`risk_free_rate / 252`), then per window
`(mean of excess / std of excess) * sqrt(252)`. -/
def calculate_rolling_sharpe (sqrtq : ℚ → ℚ) (returns : List (ℕ × ℚ))
    (window : ℕ) (risk_free_rate : ℚ) : Except PyError (List (ℕ × Option ℚ)) :=
  if returns.isEmpty then
    .error (.valueError "Input data on returns is empty.")
  else if returns.length < window then
    .error (.valueError (sharpeShortMsg window))
  else
    .ok ((List.range returns.length).map (fun i =>
      (dateAt returns i,
        if window ≤ i + 1 then
          (divO
            (some (listMean (windowSlice window i
              (returns.map (fun r => r.2 - risk_free_rate / 252)))))
            (stdO sqrtq (windowSlice window i
              (returns.map (fun r => r.2 - risk_free_rate / 252))))).map
            (fun x => x * sqrtq 252)
        else none)))

/-- Running maximum with accumulator. -/
def cummaxAux (m : ℚ) : List ℚ → List ℚ
  | [] => []
  | x :: xs => max m x :: cummaxAux (max m x) xs

/-- `Series.cummax()`. -/
def cummax : List ℚ → List ℚ
  | [] => []
  | x :: xs => x :: cummaxAux x xs

/-- `calculate_drawdown` (indicators.py, lines 209–234):
`index / index.cummax() - 1.0`. -/
def calculate_drawdown (index : List (ℕ × ℚ)) :
    Except PyError (List (ℕ × Option ℚ)) :=
  if index.isEmpty then
    .error (.valueError "Index level series is empty.")
  else
    .ok (List.zipWith (fun r m => (r.1, (divNaN r.2 m).map (fun x => x - 1)))
      index (cummax (index.map (fun r => r.2))))

/-- `Series.min()`: NaN-skipping minimum, NaN when nothing is defined. -/
def minO (xs : List (Option ℚ)) : Option ℚ :=
  (xs.filterMap id).min?

/-- `calculate_max_drawdown` (indicators.py, lines 237–251). -/
def calculate_max_drawdown (index : List (ℕ × ℚ)) :
    Except PyError (Option ℚ) :=
  (calculate_drawdown index).map (fun d => minO (d.map (fun r => r.2)))

/-- Every cell of the panel is strictly positive. -/
def AllPos (f : List (ℕ × List ℚ)) : Prop :=
  ∀ r ∈ f, ∀ x ∈ r.2, 0 < x

/-- Every row of the panel is non-empty (the panel has columns). -/
def AllRowsNonempty (f : List (ℕ × List ℚ)) : Prop :=
  ∀ r ∈ f, r.2 ≠ []

/-- The simple-return cell value on well-defined inputs. -/
def simpleVal (a b : ℚ) : ℚ := b / a - 1

/-- The log-return cell value on well-defined inputs. -/
def logVal (lnq : ℚ → ℚ) (a b : ℚ) : ℚ := lnq (b / a)

end Bubble

namespace Bubble

example : calculate_returns (fun _ => 0) [] false
    = .error (.valueError "Input financial data is empty.") := by
  norm_num [calculate_returns, pdEmptyF]

example : calculate_returns (fun _ => 0) [(0, [0]), (1, [0])] false
    = .ok [] := by
  norm_num [calculate_returns, pdEmptyF, dropna, diffRows, pctCell, divNaN, List.filterMap_cons]

example : calculate_returns (fun _ => 0) [(0, [100]), (1, [110]), (2, [121])] false
    = .ok [(1, [1/10]), (2, [1/10])] := by
  norm_num [calculate_returns, pdEmptyF, dropna, diffRows, pctCell, divNaN, List.filterMap_cons]

example : calculate_index_returns (fun _ => 0) [(0, 100), (1, 110)] false
    = .ok [(1, 1/10)] := by
  norm_num [calculate_index_returns, dropnaS, diffSeries, pctCell, divNaN, List.filterMap_cons]

example : build_equal_weight_index [(0, [0])] = .ok [(0, none)] := by
  norm_num [build_equal_weight_index, pdEmptyF, meanO, divNaN, List.filterMap_cons]

example : calculate_drawdown [(0, 1), (1, 6/5), (2, 9/10), (3, 3/2)]
    = .ok [(0, some 0), (1, some 0), (2, some (-(1/4))), (3, some 0)] := by
  norm_num [calculate_drawdown, cummax, cummaxAux, divNaN]

example : calculate_max_drawdown [(0, 1), (1, 6/5), (2, 9/10), (3, 3/2)]
    = .ok (some (-(1/4))) := by
  norm_num [calculate_max_drawdown, calculate_drawdown, cummax, cummaxAux, divNaN,
    minO, Except.map, List.filterMap_cons, List.min?]

example : calculate_rolling_correlation id [(0, [1, 1]), (1, [1, 1])] 2
    = .ok [(0, none), (1, none)] := by
  have hw0 : windowSlice 2 1 (colAt [(0, [1, 1]), (1, [1, 1])] 0) = [1, 1] := by
    norm_num [windowSlice, colAt]
  have hw1 : windowSlice 2 1 (colAt [(0, [1, 1]), (1, [1, 1])] 1) = [1, 1] := by
    norm_num [windowSlice, colAt]
  have hc : corrCell id [(1 : ℚ), 1] [1, 1] = none := by
    norm_num [corrCell, stdO, svar, listMean]
  norm_num [calculate_rolling_correlation, pdEmptyF, ncols, dateAt,
    List.range_succ, hw0, hw1, hc, meanO, List.filterMap_cons]

example : calculate_rolling_correlation (fun q => if q = 1 then 1 else 0)
      [(0, [0, 0]), (1, [1, 1]), (2, [2, 2])] 3
    = .ok [(0, none), (1, none), (2, some 1)] := by
  have hw0 : windowSlice 3 2 (colAt [(0, [0, 0]), (1, [1, 1]), (2, [2, 2])] 0)
      = [0, 1, 2] := by
    norm_num [windowSlice, colAt]
  have hw1 : windowSlice 3 2 (colAt [(0, [0, 0]), (1, [1, 1]), (2, [2, 2])] 1)
      = [0, 1, 2] := by
    norm_num [windowSlice, colAt]
  have hc : corrCell (fun q => if q = 1 then 1 else 0) [(0 : ℚ), 1, 2] [0, 1, 2]
      = some 1 := by
    norm_num [corrCell, stdO, svar, scov, listMean]
  have hm : meanO [some (1 : ℚ), some 1] = some 1 := by
    norm_num [meanO, List.filterMap_cons]
  norm_num [calculate_rolling_correlation, pdEmptyF, ncols, dateAt,
    List.range_succ, hw0, hw1, hc, hm]

example : calculate_rolling_sharpe id [(0, 0), (1, 1/2)] 2 0
    = .ok [(0, none), (1, some 504)] := by
  norm_num [calculate_rolling_sharpe, dateAt, windowSlice, stdO, svar,
    listMean, divO, divNaN, List.range_succ]

example : calculate_rolling_volatility id [(0, [1]), (1, [2])] 2
    = .ok [(0, [none]), (1, [some 126])] := by
  norm_num [calculate_rolling_volatility, pdEmptyF, ncols, dateAt, colAt,
    windowSlice, stdO, svar, listMean, List.range_succ]

example : build_equal_weight_index [(0, [2, 4]), (1, [4, 4])]
    = .ok [(0, some 1), (1, some (3/2))] := by
  norm_num [build_equal_weight_index, pdEmptyF, meanO, divNaN, List.filterMap_cons, id_eq, Option.some_ne_none]

end Bubble

namespace Bubble

theorem pdEmptyF_eq_false {f : List (ℕ × List ℚ)} (hne : f ≠ [])
    (hrows : AllRowsNonempty f) : pdEmptyF f = false := by
  cases f with
  | nil => exact absurd rfl hne
  | cons r l =>
    have hr : r.2 ≠ [] := hrows r (List.mem_cons_self r l)
    simp [pdEmptyF, List.isEmpty_iff, hr]

theorem dropna_cons_drop {r : ℕ × List (Option ℚ)} {l : List (ℕ × List (Option ℚ))}
    (h : r.2.all Option.isSome = false) : dropna (r :: l) = dropna l := by
  simp [dropna, List.filter_cons, h]

theorem dropna_cons_keep {r : ℕ × List (Option ℚ)} {l : List (ℕ × List (Option ℚ))}
    (h : r.2.all Option.isSome = true) :
    dropna (r :: l) = (r.1, r.2.filterMap id) :: dropna l := by
  simp [dropna, List.filter_cons, h]

theorem all_isSome_map_none {r : List ℚ} (h : r ≠ []) :
    ((r.map (fun _ => (none : Option ℚ))).all Option.isSome) = false := by
  cases r with
  | nil => exact absurd rfl h
  | cons a l => simp

theorem filterMap_zipWith_pos {cell : ℚ → ℚ → Option ℚ} {val : ℚ → ℚ → ℚ}
    (hcell : ∀ a b, 0 < a → 0 < b → cell a b = some (val a b)) :
    ∀ {xs ys : List ℚ}, (∀ x ∈ xs, 0 < x) → (∀ y ∈ ys, 0 < y) →
      ((List.zipWith cell xs ys).all Option.isSome = true ∧
        (List.zipWith cell xs ys).filterMap id = List.zipWith val xs ys)
  | [], ys, _, _ => by simp
  | x :: xs, [], _, _ => by simp
  | x :: xs, y :: ys, hx, hy => by
    have h0 : cell x y = some (val x y) :=
      hcell x y (hx x (List.mem_cons_self x xs)) (hy y (List.mem_cons_self y ys))
    have ih := filterMap_zipWith_pos hcell
      (fun a ha => hx a (List.mem_cons_of_mem x ha))
      (fun a ha => hy a (List.mem_cons_of_mem y ha))
    simp [h0, List.filterMap_cons, ih.1, ih.2]

theorem dropna_zipWith_pos {cell : ℚ → ℚ → Option ℚ} {val : ℚ → ℚ → ℚ}
    (hcell : ∀ a b, 0 < a → 0 < b → cell a b = some (val a b)) :
    ∀ {f rest : List (ℕ × List ℚ)}, AllPos f → AllPos rest →
      dropna (List.zipWith
          (fun prev cur => (cur.1, List.zipWith cell prev.2 cur.2)) f rest)
        = List.zipWith
          (fun prev cur => (cur.1, List.zipWith val prev.2 cur.2)) f rest
  | [], rest, _, _ => by simp [dropna]
  | r :: f, [], _, _ => by simp [dropna]
  | r :: f, c :: rest, hf, hr => by
    have hrow := filterMap_zipWith_pos hcell
      (hf r (List.mem_cons_self r f)) (hr c (List.mem_cons_self c rest))
    have ih := dropna_zipWith_pos hcell
      (fun a ha => hf a (List.mem_cons_of_mem r ha))
      (fun a ha => hr a (List.mem_cons_of_mem c ha))
    simp only [List.zipWith_cons_cons]
    rw [dropna_cons_keep hrow.1, ih, hrow.2]

theorem calculate_returns_eval {lnq : ℚ → ℚ} {f : List (ℕ × List ℚ)} {b : Bool}
    (hne : f ≠ []) (hrows : AllRowsNonempty f) (hpos : AllPos f) :
    calculate_returns lnq f b
      = .ok (List.zipWith
          (fun prev cur =>
            (cur.1, List.zipWith (if b then logVal lnq else simpleVal) prev.2 cur.2))
          f f.tail) := by
  have hcell : ∀ a c : ℚ, 0 < a → 0 < c →
      (if b then logCell lnq else pctCell) a c
        = some ((if b then logVal lnq else simpleVal) a c) := by
    intro a c ha hc
    cases b with
    | false => simp [pctCell, divNaN, ne_of_gt ha, simpleVal]
    | true => simp [logCell, ha, hc, logVal]
  cases f with
  | nil => exact absurd rfl hne
  | cons r rest =>
    obtain ⟨d0, r0⟩ := r
    have htailpos : AllPos rest := fun a ha => hpos a (List.mem_cons_of_mem _ ha)
    rw [calculate_returns, pdEmptyF_eq_false hne hrows]
    simp only [Bool.false_eq_true, if_false, diffRows]
    rw [dropna_cons_drop (all_isSome_map_none (hrows (d0, r0) (List.mem_cons_self _ _))),
      dropna_zipWith_pos hcell hpos htailpos]
    rfl

theorem dropnaS_zipWith_pos {cell : ℚ → ℚ → Option ℚ} {val : ℚ → ℚ → ℚ}
    (hcell : ∀ a b, 0 < a → 0 < b → cell a b = some (val a b)) :
    ∀ {s rest : List (ℕ × ℚ)}, (∀ r ∈ s, 0 < r.2) → (∀ r ∈ rest, 0 < r.2) →
      dropnaS (List.zipWith (fun prev cur => (cur.1, cell prev.2 cur.2)) s rest)
        = List.zipWith (fun prev cur => (cur.1, val prev.2 cur.2)) s rest
  | [], rest, _, _ => by simp [dropnaS]
  | r :: s, [], _, _ => by simp [dropnaS]
  | r :: s, c :: rest, hs, hr => by
    have h0 : cell r.2 c.2 = some (val r.2 c.2) :=
      hcell r.2 c.2 (hs r (List.mem_cons_self r s)) (hr c (List.mem_cons_self c rest))
    have ih := dropnaS_zipWith_pos hcell
      (fun a ha => hs a (List.mem_cons_of_mem r ha))
      (fun a ha => hr a (List.mem_cons_of_mem c ha))
    simp only [List.zipWith_cons_cons, dropnaS, List.filterMap_cons, h0, Option.map_some]
    rw [dropnaS] at ih
    rw [ih]
    rfl

theorem calculate_index_returns_eval {lnq : ℚ → ℚ} {s : List (ℕ × ℚ)} {b : Bool}
    (hne : s ≠ []) (hpos : ∀ r ∈ s, 0 < r.2) :
    calculate_index_returns lnq s b
      = .ok (List.zipWith
          (fun prev cur =>
            (cur.1, (if b then logVal lnq else simpleVal) prev.2 cur.2))
          s s.tail) := by
  have hcell : ∀ a c : ℚ, 0 < a → 0 < c →
      (if b then logCell lnq else pctCell) a c
        = some ((if b then logVal lnq else simpleVal) a c) := by
    intro a c ha hc
    cases b with
    | false => simp [pctCell, divNaN, ne_of_gt ha, simpleVal]
    | true => simp [logCell, ha, hc, logVal]
  cases s with
  | nil => exact absurd rfl hne
  | cons r rest =>
    obtain ⟨d0, v0⟩ := r
    have htailpos : ∀ a ∈ rest, 0 < a.2 := fun a ha => hpos a (List.mem_cons_of_mem _ ha)
    rw [calculate_index_returns]
    simp only [List.isEmpty_cons, Bool.false_eq_true, if_false, diffSeries]
    rw [show dropnaS (((d0, (none : Option ℚ))) ::
        List.zipWith (fun prev cur => (cur.1, (if b then logCell lnq else pctCell) prev.2 cur.2))
          ((d0, v0) :: rest) rest)
      = dropnaS (List.zipWith (fun prev cur => (cur.1, (if b then logCell lnq else pctCell) prev.2 cur.2))
          ((d0, v0) :: rest) rest) from by simp [dropnaS, List.filterMap_cons]]
    rw [dropnaS_zipWith_pos hcell hpos htailpos]
    rfl

/-- C1 (amended): for every non-empty price panel whose rows are non-empty
and whose prices are strictly positive — and likewise every non-empty
strictly positive index level series — `calculate_returns` and
`calculate_index_returns` succeed (simple or log convention) and produce a
return panel of length exactly one less than the source; the output panel
is NaN-free by construction (`dropna` keeps every produced row). -/
theorem c1_returns_length (lnq : ℚ → ℚ) (b : Bool) (f : List (ℕ × List ℚ))
    (s : List (ℕ × ℚ)) (hf : f ≠ []) (hrows : AllRowsNonempty f)
    (hpos : AllPos f) (hs : s ≠ []) (hspos : ∀ r ∈ s, 0 < r.2) :
    (∃ rets, calculate_returns lnq f b = .ok rets
      ∧ rets.length = f.length - 1) ∧
    (∃ rets, calculate_index_returns lnq s b = .ok rets
      ∧ rets.length = s.length - 1) := by
  constructor
  · refine ⟨_, calculate_returns_eval hf hrows hpos, ?_⟩
    simp only [List.length_zipWith, List.length_tail]
    omega
  · refine ⟨_, calculate_index_returns_eval hs hspos, ?_⟩
    simp only [List.length_zipWith, List.length_tail]
    omega

/-- C1 witness: the amended claim at the spec's own concrete scenario
(prices 100, 110, 121). -/
theorem c1_witness :
    (∃ rets, calculate_returns (fun _ => 0)
        [(0, [100]), (1, [110]), (2, [121])] false = .ok rets
      ∧ rets.length = [(0, [(100 : ℚ)]), (1, [110]), (2, [121])].length - 1) ∧
    (∃ rets, calculate_index_returns (fun _ => 0) [(0, 100), (1, 110)] false
        = .ok rets
      ∧ rets.length = [(0, (100 : ℚ)), (1, 110)].length - 1) :=
  c1_returns_length (fun _ => 0) false _ _ (by simp)
    (by intro r hr; fin_cases hr <;> simp)
    (by intro r hr; fin_cases hr <;> intro x hx <;> fin_cases hx <;> norm_num)
    (by simp) (by intro r hr; fin_cases hr <;> norm_num)

/-- C1 counterexample: the claim as stated fails on the non-empty two-row
zero-price panel: the `0/0` return cell is NaN, `dropna` removes its row,
and the output has 0 rows instead of `2 - 1 = 1`. -/
theorem c1_counterexample :
    calculate_returns (fun _ => 0) [(0, [0]), (1, [0])] false = .ok []
    ∧ ([] : List (ℕ × List ℚ)).length ≠ [(0, [(0 : ℚ)]), (1, [0])].length - 1 := by
  constructor
  · norm_num [calculate_returns, pdEmptyF, dropna, diffRows, pctCell, divNaN,
      List.filterMap_cons]
  · decide

/-- C9: a one-row price panel with at least one column is not "empty" for
the precondition check, and `calculate_returns` returns a zero-row panel:
the single row's returns are all NaN and are dropped. -/
theorem c9_single_row (lnq : ℚ → ℚ) (b : Bool) (d : ℕ) (r : List ℚ)
    (hr : r ≠ []) : calculate_returns lnq [(d, r)] b = .ok [] := by
  rw [calculate_returns,
    pdEmptyF_eq_false (List.cons_ne_nil _ _) (by simpa [AllRowsNonempty] using hr)]
  simp only [Bool.false_eq_true, if_false, diffRows, List.zipWith_nil_right]
  rw [dropna_cons_drop (all_isSome_map_none hr)]
  rfl

/-- C9 witness: the one-row panel `{A: [100]}`. -/
theorem c9_witness :
    calculate_returns (fun _ => 0) [(0, [100])] false = .ok [] :=
  c9_single_row (fun _ => 0) false 0 [100] (by simp)

/-- C10: `calculate_rolling_correlation` checks emptiness, then the column
count, then the row count: a non-empty single-column panel that also has
fewer rows than the window raises the insufficient-columns `ValueError`,
not the insufficient-data one. -/
theorem c10_check_order (sqrtq : ℚ → ℚ) (f : List (ℕ × List ℚ)) (w : ℕ)
    (hne : pdEmptyF f = false) (hcols : ncols f < 2) (_hrows : f.length < w) :
    calculate_rolling_correlation sqrtq f w
      = .error (.valueError
          "At least two columns of stocks are required to compute correlation.") := by
  rw [calculate_rolling_correlation, hne]
  simp [hcols]

/-- C10 witness: a one-column, one-row panel with window 60. -/
theorem c10_witness :
    calculate_rolling_correlation id [(0, [1])] 60
      = .error (.valueError
          "At least two columns of stocks are required to compute correlation.") :=
  c10_check_order id [(0, [1])] 60 (by rfl) (by decide) (by decide)

instance : Std.Antisymm (fun (a b : ℚ) => a ≤ b) :=
  ⟨fun h h' => le_antisymm h h'⟩

theorem qmax_eq_some_iff {xs : List ℚ} {a : ℚ} :
    xs.max? = some a ↔ a ∈ xs ∧ ∀ b ∈ xs, b ≤ a :=
  List.max?_eq_some_iff (fun a => le_refl a) (fun a b => max_choice a b)
    (fun _ _ _ => max_le_iff)

theorem qmin_eq_some_iff {xs : List ℚ} {a : ℚ} :
    xs.min? = some a ↔ a ∈ xs ∧ ∀ b ∈ xs, a ≤ b :=
  List.min?_eq_some_iff (fun a => le_refl a) (fun a b => min_choice a b)
    (fun _ _ _ => le_min_iff)

theorem sum_eq_length_of_ones : ∀ {v : List ℚ}, (∀ y ∈ v, y = 1) →
    v.sum = (v.length : ℚ)
  | [], _ => by simp
  | x :: v, h => by
    have hx : x = 1 := h x (List.mem_cons_self x v)
    have ih := sum_eq_length_of_ones (fun y hy => h y (List.mem_cons_of_mem x hy))
    simp [hx, ih]
    ring

theorem meanO_div_self {r0 : List ℚ} (hnz : ∃ x ∈ r0, x ≠ 0) :
    meanO (List.zipWith divNaN r0 r0) = some 1 := by
  rw [List.zipWith_same]
  have hmem : ∀ y ∈ (r0.map fun x => divNaN x x).filterMap id, y = 1 := by
    intro y hy
    rw [List.filterMap_map, List.mem_filterMap] at hy
    obtain ⟨a, _, ha⟩ := hy
    simp only [Function.comp, divNaN, id] at ha
    by_cases h0 : a = 0
    · simp [h0] at ha
    · rw [if_neg h0, Option.some_inj] at ha
      rw [← ha, div_self h0]
  have hne : (r0.map fun x => divNaN x x).filterMap id ≠ [] := by
    obtain ⟨x, hx, hx0⟩ := hnz
    have : (1 : ℚ) ∈ (r0.map fun x => divNaN x x).filterMap id := by
      rw [List.filterMap_map, List.mem_filterMap]
      exact ⟨x, hx, by simp [Function.comp, divNaN, hx0, div_self hx0]⟩
    exact List.ne_nil_of_mem this
  rw [meanO]
  simp only [List.isEmpty_iff, hne, if_neg, Option.some_inj]
  rw [sum_eq_length_of_ones hmem]
  have hlen : ((r0.map fun x => divNaN x x).filterMap id).length ≠ 0 :=
    fun h => hne (List.eq_nil_of_length_eq_zero h)
  have hlq : (((r0.map fun x => divNaN x x).filterMap id).length : ℚ) ≠ 0 :=
    Nat.cast_ne_zero.mpr hlen
  simp only [if_false, Option.some_inj]
  exact div_self hlq

/-- C5 (amended): `build_equal_weight_index` divides every cell of each
column by that column's first-row value and takes the row-wise NaN-skipping
mean; whenever at least one entry of the first row is nonzero, the first
output value is exactly 1.0 (the mean of the ones, with the 0/0 cells of
zero-valued columns skipped as NaN). -/
theorem c5_first_value_one (d0 : ℕ) (r0 : List ℚ) (rest : List (ℕ × List ℚ))
    (hnz : ∃ x ∈ r0, x ≠ 0) :
    ∃ out, build_equal_weight_index ((d0, r0) :: rest) = .ok out
      ∧ out.head? = some (d0, some 1) := by
  have hr0 : r0 ≠ [] := by
    obtain ⟨x, hx, _⟩ := hnz
    exact List.ne_nil_of_mem hx
  have hemp : pdEmptyF ((d0, r0) :: rest) = false := by
    simp [pdEmptyF, List.isEmpty_iff, hr0]
  rw [build_equal_weight_index, hemp]
  refine ⟨_, rfl, ?_⟩
  simp only [List.map_cons, List.head?_cons, Option.map_some', Option.getD_some,
    Option.some_inj]
  rw [meanO_div_self hnz]

/-- C5 witness: a two-column return panel with nonzero first row; the
first output value is exactly 1. -/
theorem c5_witness :
    ∃ out, build_equal_weight_index [(0, [2, 4]), (1, [4, 4])] = .ok out
      ∧ out.head? = some (0, some 1) :=
  c5_first_value_one 0 [2, 4] [(1, [4, 4])]
    ⟨2, by norm_num⟩

/-- C5 counterexample: on the non-empty panel whose single column starts
with the return value 0, normalisation produces `0/0` (NaN) and the
row-mean of an all-NaN row is NaN, so the first value is undefined, not
1.0. -/
theorem c5_counterexample :
    build_equal_weight_index [(0, [0])] = .ok [(0, none)]
    ∧ (none : Option ℚ) ≠ some 1 := by
  constructor
  · norm_num [build_equal_weight_index, pdEmptyF, meanO, divNaN, List.filterMap_cons]
  · simp

theorem cummaxAux_length (m : ℚ) : ∀ (l : List ℚ), (cummaxAux m l).length = l.length
  | [] => rfl
  | x :: xs => by simp [cummaxAux, cummaxAux_length (max m x) xs]

theorem cummax_length : ∀ (l : List ℚ), (cummax l).length = l.length
  | [] => rfl
  | x :: xs => by simp [cummax, cummaxAux_length x xs]

theorem max?_isSome_of_ne_nil {l : List ℚ} (h : l ≠ []) : ∃ u, l.max? = some u := by
  cases l with
  | nil => exact absurd rfl h
  | cons x xs => exact ⟨_, List.max?_cons⟩

theorem cummaxAux_get? (m : ℚ) : ∀ (l : List ℚ) (i : ℕ), i < l.length →
    (cummaxAux m l).get? i = ((l.take (i + 1)).max?).map (fun t => max m t)
  | [], i, hi => by simp at hi
  | x :: xs, 0, _ => by
    simp [cummaxAux, List.max?_cons, List.max?_nil]
  | x :: xs, i + 1, hi => by
    have hlen : i < xs.length := by simpa using hi
    have ih := cummaxAux_get? (max m x) xs i hlen
    have htake : xs.take (i + 1) ≠ [] := by
      have : (xs.take (i + 1)).length = min (i + 1) xs.length := List.length_take _ _
      intro hnil
      rw [hnil] at this
      simp at this
      omega
    obtain ⟨u, hu⟩ := max?_isSome_of_ne_nil htake
    simp only [cummaxAux, List.get?_cons_succ, List.take_succ_cons, List.max?_cons, hu,
      Option.elim_some, Option.map_some']
    rw [ih, hu]
    simp [max_assoc]

theorem cummax_get? : ∀ (l : List ℚ) (i : ℕ), i < l.length →
    (cummax l).get? i = (l.take (i + 1)).max?
  | [], i, hi => by simp at hi
  | x :: xs, 0, _ => by simp [cummax, List.max?_cons, List.max?_nil]
  | x :: xs, i + 1, hi => by
    have hlen : i < xs.length := by simpa using hi
    have htake : xs.take (i + 1) ≠ [] := by
      have : (xs.take (i + 1)).length = min (i + 1) xs.length := List.length_take _ _
      intro hnil
      rw [hnil] at this
      simp at this
      omega
    obtain ⟨u, hu⟩ := max?_isSome_of_ne_nil htake
    simp only [cummax, List.get?_cons_succ, List.take_succ_cons, List.max?_cons, hu,
      Option.elim_some]
    rw [cummaxAux_get? x xs i hlen, hu]
    rfl

theorem mem_zipWith {α β γ : Type} {g : α → β → γ} :
    ∀ {as : List α} {bs : List β} {z : γ}, z ∈ List.zipWith g as bs →
      ∃ a ∈ as, ∃ b ∈ bs, z = g a b
  | [], _, _, h => by simp at h
  | _ :: _, [], _, h => by simp at h
  | a :: as, b :: bs, z, h => by
    rw [List.zipWith_cons_cons, List.mem_cons] at h
    cases h with
    | inl h => exact ⟨a, List.mem_cons_self a as, b, List.mem_cons_self b bs, h⟩
    | inr h =>
      obtain ⟨x, hx, y, hy, hz⟩ := mem_zipWith h
      exact ⟨x, List.mem_cons_of_mem a hx, y, List.mem_cons_of_mem b hy, hz⟩

theorem cummaxAux_pos {m : ℚ} (hm : 0 < m) :
    ∀ {l : List ℚ}, (∀ x ∈ l, 0 < x) → ∀ y ∈ cummaxAux m l, 0 < y
  | [], _, y, hy => by simp [cummaxAux] at hy
  | x :: xs, hl, y, hy => by
    have hx : 0 < x := hl x (List.mem_cons_self x xs)
    rw [cummaxAux, List.mem_cons] at hy
    cases hy with
    | inl h => rw [h]; exact lt_max_of_lt_left hm
    | inr h =>
      exact cummaxAux_pos (lt_max_of_lt_left hm)
        (fun a ha => hl a (List.mem_cons_of_mem x ha)) y h

theorem cummax_pos {l : List ℚ} (hl : ∀ x ∈ l, 0 < x) :
    ∀ y ∈ cummax l, 0 < y := by
  cases l with
  | nil => intro y hy; simp [cummax] at hy
  | cons x xs =>
    intro y hy
    have hx : 0 < x := hl x (List.mem_cons_self x xs)
    rw [cummax, List.mem_cons] at hy
    cases hy with
    | inl h => rw [h]; exact hx
    | inr h =>
      exact cummaxAux_pos hx (fun a ha => hl a (List.mem_cons_of_mem x ha)) y h

theorem min?_isSome_of_ne_nil {l : List ℚ} (h : l ≠ []) : ∃ u, l.min? = some u := by
  cases l with
  | nil => exact absurd rfl h
  | cons x xs => exact ⟨_, List.min?_cons⟩

theorem pairwise_prefix_max {vals : List ℚ} (hmono : vals.Pairwise (· ≤ ·))
    {i : ℕ} {v : ℚ} (hv : vals.get? i = some v) :
    (vals.take (i + 1)).max? = some v := by
  rw [qmax_eq_some_iff]
  constructor
  · rw [List.mem_iff_get?]
    refine ⟨i, ?_⟩
    rw [List.get?_eq_getElem?, List.getElem?_take, if_pos (Nat.lt_succ_self i),
      ← List.get?_eq_getElem?]
    exact hv
  · intro b hb
    rw [List.mem_iff_get?] at hb
    obtain ⟨j, hj⟩ := hb
    rw [List.get?_eq_getElem?, List.getElem?_take] at hj
    by_cases hji : j < i + 1
    · rw [if_pos hji, ← List.get?_eq_getElem?] at hj
      rcases Nat.lt_or_ge j i with hlt | hge
      · rw [List.pairwise_iff_get] at hmono
        obtain ⟨hjlen, hjget⟩ := List.get?_eq_some.mp hj
        obtain ⟨hilen, higet⟩ := List.get?_eq_some.mp hv
        have := hmono ⟨j, hjlen⟩ ⟨i, hilen⟩ hlt
        rw [hjget, higet] at this
        exact this
      · have hij : j = i := by omega
        rw [hij, hv] at hj
        exact le_of_eq (Option.some_inj.mp hj.symm)
    · rw [if_neg hji] at hj
      exact absurd hj (by simp)

/-- C2: for every non-empty, strictly positive index level series,
`calculate_drawdown` returns a series with the same dates and length whose
value at `i` is `index[i] / M[i] - 1`, `M[i]` being the running maximum of
`index[0..i]`; every value is ≤ 0 and equals 0 exactly where the index
attains its running maximum; and `calculate_max_drawdown` returns the
minimum of the drawdown values — 0 for a monotonically non-decreasing
series. -/
theorem c2_drawdown_spec (s : List (ℕ × ℚ)) (hne : s ≠ [])
    (hpos : ∀ r ∈ s, 0 < r.2) :
    ∃ D, calculate_drawdown s = .ok D
      ∧ D.length = s.length
      ∧ D.map Prod.fst = s.map Prod.fst
      ∧ (∀ i r m, s.get? i = some r
          → ((s.map (fun a => a.2)).take (i + 1)).max? = some m
          → (D.get? i = some (r.1, some (r.2 / m - 1))
            ∧ r.2 / m - 1 ≤ 0
            ∧ (r.2 / m - 1 = 0 ↔ r.2 = m)))
      ∧ (∃ q, calculate_max_drawdown s = .ok (some q)
          ∧ (∃ dv ∈ D, dv.2 = some q)
          ∧ (∀ dv ∈ D, ∀ v, dv.2 = some v → q ≤ v))
      ∧ ((s.map (fun a => a.2)).Pairwise (· ≤ ·)
          → calculate_max_drawdown s = .ok (some 0)) := by
  have hempty : s.isEmpty = false := by simp [List.isEmpty_iff, hne]
  have hvlen : (s.map (fun a => a.2)).length = s.length := List.length_map _ _
  have hMlen : (cummax (s.map (fun a => a.2))).length = s.length := by
    rw [cummax_length, hvlen]
  have hD : calculate_drawdown s
      = .ok (List.zipWith (fun r m => (r.1, (divNaN r.2 m).map (fun x => x - 1)))
          s (cummax (s.map (fun a => a.2)))) := by
    rw [calculate_drawdown, hempty]
    rfl
  have hvpos : ∀ x ∈ s.map (fun a => a.2), 0 < x := by
    intro x hx
    obtain ⟨a, ha, hax⟩ := List.mem_map.mp hx
    exact hax ▸ hpos a ha
  have hMpos := cummax_pos hvpos
  -- every produced cell is defined (the running maximum is positive)
  have hall : ∀ z ∈ List.zipWith
      (fun r m => (r.1, (divNaN r.2 m).map (fun x => x - 1)))
      s (cummax (s.map (fun a => a.2))), ∃ y, z.2 = some y := by
    intro z hz
    obtain ⟨a, _, b, hb, hzz⟩ := mem_zipWith hz
    have hbpos := hMpos b hb
    refine ⟨a.2 / b - 1, ?_⟩
    rw [hzz]
    simp [divNaN, ne_of_gt hbpos]
  have hDne : List.zipWith
      (fun r m => (r.1, (divNaN r.2 m).map (fun x => x - 1)))
      s (cummax (s.map (fun a => a.2))) ≠ [] := by
    intro hnil
    have := congrArg List.length hnil
    rw [List.length_zipWith, hMlen, min_self] at this
    exact hne (List.eq_nil_of_length_eq_zero this)
  have hfne : ((List.zipWith
      (fun r m => (r.1, (divNaN r.2 m).map (fun x => x - 1)))
      s (cummax (s.map (fun a => a.2)))).map (fun r => r.2)).filterMap id ≠ [] := by
    obtain ⟨z0, L', hLcons⟩ := List.exists_cons_of_ne_nil hDne
    obtain ⟨y0, hy0⟩ := hall z0 (by rw [hLcons]; exact List.mem_cons_self _ _)
    rw [hLcons, List.map_cons, hy0, List.filterMap_cons]
    simp
  -- each defined drawdown value equals index/runningmax - 1 at its position
  have hval : ∀ dv ∈ List.zipWith
      (fun r m => (r.1, (divNaN r.2 m).map (fun x => x - 1)))
      s (cummax (s.map (fun a => a.2))), ∀ v, dv.2 = some v →
      ∃ i r m, s.get? i = some r
        ∧ (cummax (s.map (fun a => a.2))).get? i = some m
        ∧ v = r.2 / m - 1 := by
    intro dv hdv v hv
    rw [List.mem_iff_get?] at hdv
    obtain ⟨i, hdi⟩ := hdv
    rw [List.get?_zipWith'] at hdi
    cases hsi : s.get? i with
    | none => rw [hsi] at hdi; simp at hdi
    | some r =>
      rw [hsi] at hdi
      cases hMi : (cummax (s.map (fun a => a.2))).get? i with
      | none => rw [hMi] at hdi; simp at hdi
      | some m =>
        rw [hMi] at hdi
        simp only [Option.map_some', Option.some_bind, Option.some_inj] at hdi
        refine ⟨i, r, m, hsi, hMi, ?_⟩
        have hmpos : 0 < m := hMpos m (List.get?_mem hMi)
        have hdv2 : dv.2 = some (r.2 / m - 1) := by
          rw [← hdi]
          simp [divNaN, ne_of_gt hmpos]
        rw [hv] at hdv2
        exact Option.some_inj.mp hdv2
  refine ⟨_, hD, ?_, ?_, ?_, ?_, ?_⟩
  · rw [List.length_zipWith, hMlen]
    exact min_self _
  · apply List.ext_get?
    intro n
    rw [List.get?_map, List.get?_map, List.get?_zipWith']
    cases hs : s.get? n with
    | none => simp
    | some r =>
      obtain ⟨hn, _⟩ := List.get?_eq_some.mp hs
      have hnM : n < (cummax (s.map (fun a => a.2))).length := by omega
      have hm : (cummax (s.map (fun a => a.2)))[n]?
          = some ((cummax (s.map (fun a => a.2)))[n]) :=
        List.getElem?_eq_getElem hnM
      simp [hs, hm]
  · intro i r m hsi hmax
    obtain ⟨hi, _⟩ := List.get?_eq_some.mp hsi
    have hMi : (cummax (s.map (fun a => a.2))).get? i = some m := by
      rw [cummax_get? _ i (by omega), hmax]
    have hmmem : m ∈ s.map (fun a => a.2) :=
      List.mem_of_mem_take ((qmax_eq_some_iff.mp hmax).1)
    have hm : 0 < m := hvpos m hmmem
    have hrm : r.2 ≤ m := by
      apply (qmax_eq_some_iff.mp hmax).2
      rw [List.mem_iff_get?]
      refine ⟨i, ?_⟩
      rw [List.get?_eq_getElem?, List.getElem?_take, if_pos (Nat.lt_succ_self i),
        ← List.get?_eq_getElem?, List.get?_map, hsi]
      rfl
    refine ⟨?_, ?_, ?_⟩
    · rw [List.get?_zipWith', hsi, hMi]
      simp [divNaN, ne_of_gt hm]
    · exact sub_nonpos.mpr ((div_le_one hm).mpr hrm)
    · rw [sub_eq_zero]
      exact ⟨fun h1 => (div_eq_one_iff_eq (ne_of_gt hm)).mp h1,
        fun h1 => (div_eq_one_iff_eq (ne_of_gt hm)).mpr h1⟩
  · obtain ⟨q, hq⟩ := min?_isSome_of_ne_nil hfne
    refine ⟨q, ?_, ?_, ?_⟩
    · rw [calculate_max_drawdown, hD, Except.map, minO, hq]
    · obtain ⟨hqmem, _⟩ := qmin_eq_some_iff.mp hq
      obtain ⟨a, ha, haq⟩ := List.mem_filterMap.mp hqmem
      obtain ⟨dv, hdv, hdva⟩ := List.mem_map.mp ha
      have ha2 : a = some q := by simpa using haq
      exact ⟨dv, hdv, hdva.trans ha2⟩
    · intro dv hdv v hv
      obtain ⟨_, hbound⟩ := qmin_eq_some_iff.mp hq
      apply hbound
      rw [List.mem_filterMap]
      exact ⟨some v, by rw [← hv]; exact List.mem_map_of_mem _ hdv, rfl⟩
  · intro hmono
    rw [calculate_max_drawdown, hD, Except.map, minO]
    have hzero : ∀ b ∈ ((List.zipWith
        (fun r m => (r.1, (divNaN r.2 m).map (fun x => x - 1)))
        s (cummax (s.map (fun a => a.2)))).map (fun r => r.2)).filterMap id,
        b = 0 := by
      intro b hb
      obtain ⟨a, ha, hab⟩ := List.mem_filterMap.mp hb
      obtain ⟨dv, hdv, hdva⟩ := List.mem_map.mp ha
      have hdvb : dv.2 = some b := by
        rw [hdva]
        simpa using hab
      obtain ⟨i, r, m, hsi, hMi, hbval⟩ := hval dv hdv b hdvb
      obtain ⟨hi, _⟩ := List.get?_eq_some.mp hsi
      have hvi : (s.map (fun a => a.2)).get? i = some r.2 := by
        rw [List.get?_map, hsi]
        rfl
      have hmax : ((s.map (fun a => a.2)).take (i + 1)).max? = some r.2 :=
        pairwise_prefix_max hmono hvi
      have hMi' : (cummax (s.map (fun a => a.2))).get? i = some r.2 := by
        rw [cummax_get? _ i (by omega), hmax]
      have hmr : m = r.2 := by
        rw [hMi] at hMi'
        exact Option.some_inj.mp hMi'
      have hrpos : 0 < r.2 := hpos r (List.get?_mem hsi)
      rw [hbval, hmr, div_self (ne_of_gt hrpos), sub_self]
    obtain ⟨b0, hb0⟩ := List.exists_mem_of_ne_nil _ hfne
    have hmem0 : (0 : ℚ) ∈ ((List.zipWith
        (fun r m => (r.1, (divNaN r.2 m).map (fun x => x - 1)))
        s (cummax (s.map (fun a => a.2)))).map (fun r => r.2)).filterMap id :=
      (hzero b0 hb0) ▸ hb0
    rw [qmin_eq_some_iff.mpr ⟨hmem0, fun b hb => le_of_eq (hzero b hb).symm⟩]

/-- C2 witness: the spec's concrete scenario (index levels
`[1.0, 1.2, 0.9, 1.5]`): the drawdown series exists with 4 entries and the
max drawdown evaluates to `-0.25`. -/
theorem c2_witness :
    ∃ D, calculate_drawdown [(0, 1), (1, 6/5), (2, 9/10), (3, 3/2)] = .ok D
      ∧ D.length = 4
      ∧ calculate_max_drawdown [(0, 1), (1, 6/5), (2, 9/10), (3, 3/2)]
          = .ok (some (-(1/4))) := by
  obtain ⟨D, h1, h2, _⟩ := c2_drawdown_spec [(0, 1), (1, 6/5), (2, 9/10), (3, 3/2)]
    (by simp) (by intro r hr; fin_cases hr <;> norm_num)
  refine ⟨D, h1, by simpa using h2, ?_⟩
  norm_num [calculate_max_drawdown, calculate_drawdown, cummax, cummaxAux, divNaN,
    minO, Except.map, List.filterMap_cons, List.min?]

/-- C4 (amended): every indicator raises on a zero-row (or zero-column)
input, every rolling indicator raises when the rows are fewer than the
window, and rolling correlation raises on fewer than two columns — but all
of these are the *same* exception class `ValueError`, distinguished only
by message (the correlation row-count message even reuses the volatility
wording); they are not three separately catchable kinds. -/
theorem c4_error_conditions (lnq sqrtq : ℚ → ℚ) (b : Bool) (w : ℕ) (rf : ℚ)
    (fe f1 f2 : List (ℕ × List ℚ)) (se s1 : List (ℕ × ℚ))
    (hfe : pdEmptyF fe = true) (hse : se = [])
    (hf1 : pdEmptyF f1 = false) (hc1 : 2 ≤ ncols f1) (hl1 : f1.length < w)
    (hf2 : pdEmptyF f2 = false) (hc2 : ncols f2 < 2)
    (hs1 : s1 ≠ []) (hl2 : s1.length < w) :
    calculate_returns lnq fe b
      = .error (.valueError "Input financial data is empty.")
    ∧ build_equal_weight_index fe
      = .error (.valueError "Input financial data is empty.")
    ∧ calculate_rolling_volatility sqrtq fe w
      = .error (.valueError "Input data on returns is empty.")
    ∧ calculate_rolling_correlation sqrtq fe w
      = .error (.valueError "Input data on returns is empty.")
    ∧ calculate_index_returns lnq se b
      = .error (.valueError "Index level series is empty.")
    ∧ calculate_rolling_sharpe sqrtq se w rf
      = .error (.valueError "Input data on returns is empty.")
    ∧ calculate_drawdown se = .error (.valueError "Index level series is empty.")
    ∧ calculate_max_drawdown se
      = .error (.valueError "Index level series is empty.")
    ∧ calculate_rolling_volatility sqrtq f1 w
      = .error (.valueError (volShortMsg w))
    ∧ calculate_rolling_correlation sqrtq f1 w
      = .error (.valueError (volShortMsg w))
    ∧ calculate_rolling_sharpe sqrtq s1 w rf
      = .error (.valueError (sharpeShortMsg w))
    ∧ calculate_rolling_correlation sqrtq f2 w
      = .error (.valueError
          "At least two columns of stocks are required to compute correlation.")
    ∧ errKind (calculate_rolling_volatility sqrtq fe w) = some PyKind.valueError
    ∧ errKind (calculate_rolling_volatility sqrtq f1 w) = some PyKind.valueError
    ∧ errKind (calculate_rolling_correlation sqrtq f2 w) = some PyKind.valueError
    ∧ volShortMsg 60 ≠ "Input data on returns is empty."
    ∧ "At least two columns of stocks are required to compute correlation."
        ≠ volShortMsg 60
    ∧ sharpeShortMsg 60 ≠ volShortMsg 60 := by
  subst hse
  have hnl1 : ¬ ncols f1 < 2 := Nat.not_lt.mpr hc1
  have hs1e : s1.isEmpty = false := by simp [List.isEmpty_iff, hs1]
  refine ⟨?_, ?_, ?_, ?_, ?_, ?_, ?_, ?_, ?_, ?_, ?_, ?_, ?_, ?_, ?_, ?_, ?_, ?_⟩
  · rw [calculate_returns, hfe]
    rfl
  · rw [build_equal_weight_index, hfe]
    rfl
  · rw [calculate_rolling_volatility, hfe]
    rfl
  · rw [calculate_rolling_correlation, hfe]
    rfl
  · rfl
  · rfl
  · rfl
  · rfl
  · rw [calculate_rolling_volatility, hf1]
    simp [hl1]
  · rw [calculate_rolling_correlation, hf1]
    simp [hnl1, hl1]
  · rw [calculate_rolling_sharpe, hs1e]
    simp [hl2]
  · rw [calculate_rolling_correlation, hf2]
    simp [hc2]
  · rw [calculate_rolling_volatility, hfe]
    rfl
  · rw [calculate_rolling_volatility, hf1]
    simp [hl1, errKind, PyError.kind]
  · rw [calculate_rolling_correlation, hf2]
    simp [hc2, errKind, PyError.kind]
  · decide
  · decide
  · decide

/-- C4 witness: concrete inputs exercising each error path at window 60. -/
theorem c4_witness :
    calculate_returns (fun _ => 0) [] false
      = .error (.valueError "Input financial data is empty.")
    ∧ build_equal_weight_index []
      = .error (.valueError "Input financial data is empty.")
    ∧ calculate_rolling_volatility id [] 60
      = .error (.valueError "Input data on returns is empty.")
    ∧ calculate_rolling_correlation id [] 60
      = .error (.valueError "Input data on returns is empty.")
    ∧ calculate_index_returns (fun _ => 0) [] false
      = .error (.valueError "Index level series is empty.")
    ∧ calculate_rolling_sharpe id [] 60 0
      = .error (.valueError "Input data on returns is empty.")
    ∧ calculate_drawdown [] = .error (.valueError "Index level series is empty.")
    ∧ calculate_max_drawdown []
      = .error (.valueError "Index level series is empty.")
    ∧ calculate_rolling_volatility id [(0, [1, 2])] 60
      = .error (.valueError (volShortMsg 60))
    ∧ calculate_rolling_correlation id [(0, [1, 2])] 60
      = .error (.valueError (volShortMsg 60))
    ∧ calculate_rolling_sharpe id [(0, 1)] 60 0
      = .error (.valueError (sharpeShortMsg 60))
    ∧ calculate_rolling_correlation id [(0, [1])] 60
      = .error (.valueError
          "At least two columns of stocks are required to compute correlation.")
    ∧ errKind (calculate_rolling_volatility id [] 60) = some PyKind.valueError
    ∧ errKind (calculate_rolling_volatility id [(0, [1, 2])] 60)
        = some PyKind.valueError
    ∧ errKind (calculate_rolling_correlation id [(0, [1])] 60)
        = some PyKind.valueError
    ∧ volShortMsg 60 ≠ "Input data on returns is empty."
    ∧ "At least two columns of stocks are required to compute correlation."
        ≠ volShortMsg 60
    ∧ sharpeShortMsg 60 ≠ volShortMsg 60 :=
  c4_error_conditions (fun _ => 0) id false 60 0 [] [(0, [1, 2])] [(0, [1])]
    [] [(0, 1)] (by rfl) rfl (by rfl) (by decide) (by decide) (by rfl)
    (by decide) (by simp) (by decide)

/-- C4 counterexample: the three spec error kinds are not distinct,
separately catchable exception classes — a zero-row input, an
insufficient-rows input and a single-column correlation input all raise
the very same class `ValueError` (only the message differs), so one
`except ValueError` clause catches all three. -/
theorem c4_counterexample :
    errKind (calculate_rolling_volatility id ([] : List (ℕ × List ℚ)) 60)
        = errKind (calculate_rolling_volatility id [(0, [1, 2])] 60)
    ∧ errKind (calculate_rolling_volatility id [(0, [1, 2])] 60)
        = errKind (calculate_rolling_correlation id [(0, [1])] 60)
    ∧ errKind (calculate_rolling_volatility id ([] : List (ℕ × List ℚ)) 60)
        = some PyKind.valueError := by
  refine ⟨?_, ?_, ?_⟩ <;>
    norm_num [calculate_rolling_volatility, calculate_rolling_correlation,
      pdEmptyF, ncols, errKind, PyError.kind]

theorem rangeMap_get? {α : Type} (n : ℕ) (g : ℕ → α) {i : ℕ} (hi : i < n) :
    ((List.range n).map g).get? i = some (g i) := by
  rw [List.get?_map, List.get?_range hi]
  rfl

theorem rangeMap_fst {α β : Type} (f : List (ℕ × α)) (g : ℕ → β) :
    ((List.range f.length).map (fun i => (dateAt f i, g i))).map Prod.fst
      = f.map Prod.fst := by
  apply List.ext_get?
  intro n
  by_cases hn : n < f.length
  · rw [List.get?_map, rangeMap_get? _ _ hn, List.get?_map]
    have hs : f.get? n = some (f.get ⟨n, hn⟩) := List.get?_eq_get hn
    have hs2 : f[n]? = some (f.get ⟨n, hn⟩) := by
      rw [← List.get?_eq_getElem?]
      exact hs
    rw [hs]
    simp [dateAt, hs2]
  · have h1 : (((List.range f.length).map
        (fun i => (dateAt f i, g i))).map Prod.fst).get? n = none := by
      rw [List.get?_eq_none]
      simp
      omega
    have h2 : (f.map Prod.fst).get? n = none := by
      rw [List.get?_eq_none]
      simp
      omega
    rw [h1, h2]

/-- C7: on strictly positive price panels the simple-return cell is
`price[i+1][j] / price[i][j] - 1`, and the round trip
`price[i+1][j] = price[i][j] * (1 + return cell)` holds exactly in the
rational idealisation of float arithmetic. -/
theorem c7_round_trip (lnq : ℚ → ℚ) (f : List (ℕ × List ℚ)) (hne : f ≠ [])
    (hrows : AllRowsNonempty f) (hpos : AllPos f) :
    ∃ rets, calculate_returns lnq f false = .ok rets
      ∧ rets.length = f.length - 1
      ∧ ∀ i prev cur, f.get? i = some prev → f.get? (i + 1) = some cur →
          ∃ rrow, rets.get? i = some rrow
            ∧ rrow.1 = cur.1
            ∧ rrow.2 = List.zipWith simpleVal prev.2 cur.2
            ∧ ∀ j a c, prev.2.get? j = some a → cur.2.get? j = some c →
                rrow.2.get? j = some (c / a - 1)
                ∧ c = a * (1 + (c / a - 1)) := by
  refine ⟨_, calculate_returns_eval hne hrows hpos, ?_, ?_⟩
  · simp only [List.length_zipWith, List.length_tail]
    omega
  · intro i prev cur hprev hcur
    have htail : f.tail.get? i = some cur := by
      rw [List.get?_eq_getElem?, List.getElem?_tail, ← List.get?_eq_getElem?]
      exact hcur
    refine ⟨(cur.1, List.zipWith simpleVal prev.2 cur.2), ?_, rfl, rfl, ?_⟩
    · rw [List.get?_zipWith', hprev, htail]
      rfl
    · intro j a c hja hjc
      have ha : 0 < a := hpos prev (List.get?_mem hprev) a (List.get?_mem hja)
      constructor
      · rw [List.get?_zipWith', hja, hjc]
        simp [simpleVal]
      · field_simp

/-- C7 witness: the spec's concrete scenario, prices 100, 110, 121 in one
column: both return cells are 1/10 and the round trip holds. -/
theorem c7_witness :
    ∃ rets, calculate_returns (fun _ => 0)
        [(0, [100]), (1, [110]), (2, [121])] false = .ok rets
      ∧ rets.length = [(0, [(100 : ℚ)]), (1, [110]), (2, [121])].length - 1
      ∧ ∀ i prev cur,
          [(0, [(100 : ℚ)]), (1, [110]), (2, [121])].get? i = some prev →
          [(0, [(100 : ℚ)]), (1, [110]), (2, [121])].get? (i + 1) = some cur →
          ∃ rrow, rets.get? i = some rrow
            ∧ rrow.1 = cur.1
            ∧ rrow.2 = List.zipWith simpleVal prev.2 cur.2
            ∧ ∀ j a c, prev.2.get? j = some a → cur.2.get? j = some c →
                rrow.2.get? j = some (c / a - 1)
                ∧ c = a * (1 + (c / a - 1)) :=
  c7_round_trip (fun _ => 0) [(0, [100]), (1, [110]), (2, [121])] (by simp)
    (by intro r hr; fin_cases hr <;> simp)
    (by intro r hr; fin_cases hr <;> intro x hx <;> fin_cases hx <;> norm_num)

theorem windowSlice_length {α : Type} {w i : ℕ} {xs : List α} (hi : i < xs.length)
    (hw : w ≤ i + 1) : (windowSlice w i xs).length = w := by
  rw [windowSlice, List.length_drop, List.length_take]
  omega

theorem windowSlice_at_first {α : Type} {w : ℕ} (xs : List α) (hw : 1 ≤ w) :
    windowSlice w (w - 1) xs = xs.take w := by
  rw [windowSlice]
  have h1 : w - 1 + 1 = w := by omega
  rw [h1, Nat.sub_self, List.drop_zero]

/-- C8: `calculate_rolling_sharpe` subtracts the per-period risk-free rate
`risk_free_rate / 252` from each return and, per full window, yields
`(mean of excess returns / std of excess returns) * sqrt(252)`; a
zero-std window is not guarded: the call still returns successfully and
that window's value is undefined. -/
theorem c8_sharpe_formula (sqrtq : ℚ → ℚ) (s : List (ℕ × ℚ)) (w : ℕ) (rf : ℚ)
    (hne : s ≠ []) (hw : w ≤ s.length) (hw2 : 2 ≤ w) :
    ∃ out, calculate_rolling_sharpe sqrtq s w rf = .ok out
      ∧ out.length = s.length
      ∧ out.map Prod.fst = s.map Prod.fst
      ∧ ∀ i, i < s.length → w ≤ i + 1 →
          ((sqrtq (svar (windowSlice w i (s.map (fun r => r.2 - rf / 252)))) = 0 →
            out.get? i = some (dateAt s i, none))
          ∧ (sqrtq (svar (windowSlice w i (s.map (fun r => r.2 - rf / 252)))) ≠ 0 →
            out.get? i = some (dateAt s i,
              some (listMean (windowSlice w i (s.map (fun r => r.2 - rf / 252)))
                / sqrtq (svar (windowSlice w i (s.map (fun r => r.2 - rf / 252))))
                * sqrtq 252)))) := by
  have hsE : s.isEmpty = false := by simp [List.isEmpty_iff, hne]
  have hok : calculate_rolling_sharpe sqrtq s w rf
      = .ok ((List.range s.length).map (fun i =>
        (dateAt s i,
          if w ≤ i + 1 then
            (divO
              (some (listMean (windowSlice w i
                (s.map (fun r => r.2 - rf / 252)))))
              (stdO sqrtq (windowSlice w i
                (s.map (fun r => r.2 - rf / 252))))).map
              (fun x => x * sqrtq 252)
          else none))) := by
    rw [calculate_rolling_sharpe, hsE]
    rw [if_neg (by simp)]
    rw [if_neg (Nat.not_lt.mpr hw)]
  refine ⟨_, hok, by simp, rangeMap_fst s _, ?_⟩
  intro i hi hwi
  have hlen : (windowSlice w i (s.map (fun r => r.2 - rf / 252))).length = w :=
    windowSlice_length (by simpa using hi) hwi
  have hstd : stdO sqrtq (windowSlice w i (s.map (fun r => r.2 - rf / 252)))
      = some (sqrtq (svar (windowSlice w i (s.map (fun r => r.2 - rf / 252))))) := by
    rw [stdO, if_neg (by omega)]
  constructor
  · intro hz
    rw [rangeMap_get? _ _ hi, if_pos hwi, hstd, hz]
    simp [divO, divNaN]
  · intro hz
    rw [rangeMap_get? _ _ hi, if_pos hwi, hstd]
    simp [divO, divNaN, hz]

/-- C8 witness: window 2 over a two-point series. The constant series has
a zero-variance window, so its Sharpe value is undefined while the call
succeeds; the non-constant series evaluates to
`(1/4) / (1/8) * 252 = 504` under the identity stand-in for `sqrt`. -/
theorem c8_witness :
    (∃ out, calculate_rolling_sharpe id [(0, 1/10), (1, 1/10)] 2 0 = .ok out
      ∧ out.get? 1 = some (1, none))
    ∧ (∃ out, calculate_rolling_sharpe id [(0, 0), (1, 1/2)] 2 0 = .ok out
      ∧ out.get? 1 = some (1, some 504)) := by
  constructor
  · obtain ⟨out, h1, _, _, h4⟩ :=
      c8_sharpe_formula id [(0, 1/10), (1, 1/10)] 2 0 (by simp) (by simp) (by omega)
    refine ⟨out, h1, ?_⟩
    have := (h4 1 (by simp) (by omega)).1 (by
      norm_num [windowSlice, svar, listMean])
    simpa [dateAt] using this
  · obtain ⟨out, h1, _, _, h4⟩ :=
      c8_sharpe_formula id [(0, 0), (1, 1/2)] 2 0 (by simp) (by simp) (by omega)
    refine ⟨out, h1, ?_⟩
    have := (h4 1 (by simp) (by omega)).2 (by
      norm_num [windowSlice, svar, listMean])
    rw [this]
    norm_num [windowSlice, svar, listMean, dateAt]

theorem colAt_length (f : List (ℕ × List ℚ)) (j : ℕ) :
    (colAt f j).length = f.length :=
  List.length_map _ _

theorem meanO_isSome_of_mem {xs : List (Option ℚ)} {q : ℚ} (h : some q ∈ xs) :
    ∃ y, meanO xs = some y := by
  have : q ∈ xs.filterMap id := by
    rw [List.mem_filterMap]
    exact ⟨some q, h, rfl⟩
  have hne : xs.filterMap id ≠ [] := List.ne_nil_of_mem this
  rw [meanO]
  simp only [List.isEmpty_iff, hne, if_neg]
  exact ⟨_, rfl⟩

theorem corrCell_eval {sqrtq : ℚ → ℚ} {xs ys : List ℚ} (hx : 1 < xs.length)
    (hy : 1 < ys.length) :
    corrCell sqrtq xs ys =
      if sqrtq (svar xs) * sqrtq (svar ys) = 0 then none
      else some (scov xs ys / (sqrtq (svar xs) * sqrtq (svar ys))) := by
  rw [corrCell, stdO, stdO]
  rw [if_neg (show ¬ xs.length ≤ 1 by omega),
    if_neg (show ¬ ys.length ≤ 1 by omega)]

/-- C3 (amended): all three rolling outputs retain the full date index of
their input and their first `window - 1` entries are undefined; the entry
at position `window - 1` is computed from input rows `[0, window - 1]`
only (it is the `take window` prefix); it is defined for volatility
whenever `window ≥ 2`, and for correlation/Sharpe additionally when the
first window's (sqrt of) variance is nonzero — a zero-variance first
window makes the correlation/Sharpe entry NaN, so it need not be the
first defined value. -/
theorem c3_rolling_structure (sqrtq : ℚ → ℚ) (f : List (ℕ × List ℚ))
    (s : List (ℕ × ℚ)) (w : ℕ) (rf : ℚ)
    (hf : pdEmptyF f = false) (hwf : w ≤ f.length) (hc : 2 ≤ ncols f)
    (hs : s ≠ []) (hws : w ≤ s.length) :
    (∃ out, calculate_rolling_volatility sqrtq f w = .ok out
      ∧ out.length = f.length
      ∧ out.map Prod.fst = f.map Prod.fst
      ∧ (∀ i, i + 1 < w → i < f.length →
          out.get? i = some (dateAt f i,
            (List.range (ncols f)).map (fun _ => (none : Option ℚ))))
      ∧ (1 ≤ w → out.get? (w - 1) = some (dateAt f (w - 1),
          (List.range (ncols f)).map (fun j =>
            (stdO sqrtq ((colAt f j).take w)).map (fun x => x * sqrtq 252))))
      ∧ (2 ≤ w → ∀ j, ∃ y,
          (stdO sqrtq ((colAt f j).take w)).map (fun x => x * sqrtq 252)
            = some y))
    ∧ (∃ out, calculate_rolling_correlation sqrtq f w = .ok out
      ∧ out.length = f.length
      ∧ out.map Prod.fst = f.map Prod.fst
      ∧ (∀ i, i + 1 < w → i < f.length → out.get? i = some (dateAt f i, none))
      ∧ (1 ≤ w → out.get? (w - 1) = some (dateAt f (w - 1),
          meanO ((List.range (ncols f)).map (fun j =>
            meanO ((List.range (ncols f)).map (fun k =>
              corrCell sqrtq ((colAt f k).take w) ((colAt f j).take w)))))))
      ∧ (2 ≤ w → (∀ j < ncols f, sqrtq (svar ((colAt f j).take w)) ≠ 0) →
          ∃ y, meanO ((List.range (ncols f)).map (fun j =>
            meanO ((List.range (ncols f)).map (fun k =>
              corrCell sqrtq ((colAt f k).take w) ((colAt f j).take w)))))
            = some y))
    ∧ (∃ out, calculate_rolling_sharpe sqrtq s w rf = .ok out
      ∧ out.length = s.length
      ∧ out.map Prod.fst = s.map Prod.fst
      ∧ (∀ i, i + 1 < w → i < s.length → out.get? i = some (dateAt s i, none))
      ∧ (1 ≤ w → out.get? (w - 1) = some (dateAt s (w - 1),
          (divO (some (listMean ((s.map (fun r => r.2 - rf / 252)).take w)))
            (stdO sqrtq ((s.map (fun r => r.2 - rf / 252)).take w))).map
              (fun x => x * sqrtq 252)))
      ∧ (2 ≤ w → sqrtq (svar ((s.map (fun r => r.2 - rf / 252)).take w)) ≠ 0 →
          ∃ y, (divO (some (listMean ((s.map (fun r => r.2 - rf / 252)).take w)))
            (stdO sqrtq ((s.map (fun r => r.2 - rf / 252)).take w))).map
              (fun x => x * sqrtq 252) = some y)) := by
  have hsE : s.isEmpty = false := by simp [List.isEmpty_iff, hs]
  have htakef : ∀ j : ℕ, ((colAt f j).take w).length = w := by
    intro j
    rw [List.length_take, colAt_length]
    omega
  have htakes : ((s.map (fun r => r.2 - rf / 252)).take w).length = w := by
    rw [List.length_take, List.length_map]
    omega
  have hokv : calculate_rolling_volatility sqrtq f w
      = .ok ((List.range f.length).map (fun i =>
        (dateAt f i,
          (List.range (ncols f)).map (fun j =>
            if w ≤ i + 1 then
              (stdO sqrtq (windowSlice w i (colAt f j))).map
                (fun x => x * sqrtq 252)
            else none)))) := by
    rw [calculate_rolling_volatility, hf]
    rw [if_neg (by simp)]
    rw [if_neg (Nat.not_lt.mpr hwf)]
  have hokc : calculate_rolling_correlation sqrtq f w
      = .ok ((List.range f.length).map (fun i =>
        (dateAt f i,
          if w ≤ i + 1 then
            meanO ((List.range (ncols f)).map (fun j =>
              meanO ((List.range (ncols f)).map (fun k =>
                corrCell sqrtq (windowSlice w i (colAt f k))
                  (windowSlice w i (colAt f j))))))
          else none))) := by
    rw [calculate_rolling_correlation, hf]
    rw [if_neg (by simp)]
    rw [if_neg (Nat.not_lt.mpr hc)]
    rw [if_neg (Nat.not_lt.mpr hwf)]
  have hoks : calculate_rolling_sharpe sqrtq s w rf
      = .ok ((List.range s.length).map (fun i =>
        (dateAt s i,
          if w ≤ i + 1 then
            (divO
              (some (listMean (windowSlice w i
                (s.map (fun r => r.2 - rf / 252)))))
              (stdO sqrtq (windowSlice w i
                (s.map (fun r => r.2 - rf / 252))))).map
              (fun x => x * sqrtq 252)
          else none))) := by
    rw [calculate_rolling_sharpe, hsE]
    rw [if_neg (by simp)]
    rw [if_neg (Nat.not_lt.mpr hws)]
  refine ⟨?_, ?_, ?_⟩
  · -- volatility
    refine ⟨_, hokv, by simp, rangeMap_fst f _, ?_, ?_, ?_⟩
    · intro i h1 h2
      rw [rangeMap_get? _ _ h2]
      have hcong : ∀ j ∈ List.range (ncols f),
          (if w ≤ i + 1 then
            (stdO sqrtq (windowSlice w i (colAt f j))).map (fun x => x * sqrtq 252)
          else none) = (none : Option ℚ) :=
        fun j _ => if_neg (by omega)
      rw [List.map_congr_left hcong]
    · intro hw1
      rw [rangeMap_get? _ _ (by omega)]
      have hcong : ∀ j ∈ List.range (ncols f),
          (if w ≤ w - 1 + 1 then
            (stdO sqrtq (windowSlice w (w - 1) (colAt f j))).map
              (fun x => x * sqrtq 252)
          else none)
          = (stdO sqrtq ((colAt f j).take w)).map (fun x => x * sqrtq 252) := by
        intro j _
        rw [if_pos (by omega), windowSlice_at_first _ hw1]
      rw [List.map_congr_left hcong]
    · intro hw2 j
      rw [stdO, if_neg (by rw [htakef j]; omega)]
      exact ⟨_, rfl⟩
  · -- correlation
    refine ⟨_, hokc, by simp, rangeMap_fst f _, ?_, ?_, ?_⟩
    · intro i h1 h2
      rw [rangeMap_get? _ _ h2, if_neg (by omega)]
    · intro hw1
      rw [rangeMap_get? _ _ (by omega), if_pos (by omega)]
      simp only [windowSlice_at_first _ hw1]
    · intro hw2 hvarnz
      have hdiag : ∀ j < ncols f, ∃ y,
          corrCell sqrtq ((colAt f j).take w) ((colAt f j).take w) = some y := by
        intro j hj
        rw [corrCell_eval (by rw [htakef j]; omega) (by rw [htakef j]; omega)]
        rw [if_neg (mul_ne_zero (hvarnz j hj) (hvarnz j hj))]
        exact ⟨_, rfl⟩
      have hinner : ∀ j < ncols f, ∃ y,
          meanO ((List.range (ncols f)).map (fun k =>
            corrCell sqrtq ((colAt f k).take w) ((colAt f j).take w)))
            = some y := by
        intro j hj
        obtain ⟨y, hy⟩ := hdiag j hj
        apply meanO_isSome_of_mem (q := y)
        rw [List.mem_map]
        exact ⟨j, List.mem_range.mpr hj, hy⟩
      obtain ⟨y0, hy0⟩ := hinner 0 (by omega)
      apply meanO_isSome_of_mem (q := y0)
      rw [List.mem_map]
      exact ⟨0, List.mem_range.mpr (by omega), hy0⟩
  · -- Sharpe
    refine ⟨_, hoks, by simp, rangeMap_fst s _, ?_, ?_, ?_⟩
    · intro i h1 h2
      rw [rangeMap_get? _ _ h2, if_neg (by omega)]
    · intro hw1
      rw [rangeMap_get? _ _ (by omega), if_pos (by omega),
        windowSlice_at_first _ hw1]
    · intro hw2 hvarnz
      rw [stdO, if_neg (by rw [htakes]; omega)]
      simp [divO, divNaN, hvarnz]

/-- C3 counterexample: the claim's "the entry at position window − 1 is
the first defined value" fails for rolling correlation: on a two-column
constant return panel with window 2 (which has `window` rows, satisfying
the stated precondition), every window has zero variance, `corr` is `0/0`
(NaN), and the entry at position `window − 1 = 1` is undefined. -/
theorem c3_counterexample :
    calculate_rolling_correlation id [(0, [1, 1]), (1, [1, 1])] 2
      = .ok [(0, none), (1, none)]
    ∧ (2 : ℕ) ≤ [(0, [(1 : ℚ), 1]), (1, [1, 1])].length := by
  constructor
  · have hw0 : windowSlice 2 1 (colAt [(0, [1, 1]), (1, [1, 1])] 0) = [1, 1] := by
      norm_num [windowSlice, colAt]
    have hw1 : windowSlice 2 1 (colAt [(0, [1, 1]), (1, [1, 1])] 1) = [1, 1] := by
      norm_num [windowSlice, colAt]
    have hcc : corrCell id [(1 : ℚ), 1] [1, 1] = none := by
      norm_num [corrCell, stdO, svar, listMean]
    norm_num [calculate_rolling_correlation, pdEmptyF, ncols, dateAt,
      List.range_succ, hw0, hw1, hcc, meanO, List.filterMap_cons]
  · decide

/-- C3 witness: the amended claim at a concrete 3-row panel/series with
window 2: position 0 is undefined in all three outputs, the volatility
entry at position 1 is defined in both columns, and the correlation and
Sharpe entries at position 1 are defined because the first windows have
nonzero variance. -/
theorem c3_witness :
    (∃ out, calculate_rolling_volatility id
        [(0, [1, 2]), (1, [2, 3]), (2, [4, 5])] 2 = .ok out
      ∧ out.length = 3
      ∧ out.get? 0 = some (0, [none, none])
      ∧ ∃ y0 y1, out.get? 1 = some (1, [some y0, some y1]))
    ∧ (∃ out, calculate_rolling_correlation id
        [(0, [1, 2]), (1, [2, 3]), (2, [4, 5])] 2 = .ok out
      ∧ out.get? 0 = some (0, none)
      ∧ ∃ y, out.get? 1 = some (1, some y))
    ∧ (∃ out, calculate_rolling_sharpe id [(0, 1), (1, 2), (2, 3)] 2 0 = .ok out
      ∧ out.get? 0 = some (0, none)
      ∧ ∃ y, out.get? 1 = some (1, some y)) := by
  obtain ⟨⟨v, hv1, hv2, hv3, hv4, hv5, hv6⟩,
      ⟨c, hc1, _, _, hc4, hc5, hc6⟩, ⟨sh, hs1, _, _, hs4, hs5, hs6⟩⟩ :=
    c3_rolling_structure id [(0, [1, 2]), (1, [2, 3]), (2, [4, 5])]
      [(0, 1), (1, 2), (2, 3)] 2 0 (by rfl) (by norm_num) (by norm_num [ncols])
      (by simp) (by norm_num)
  have hvarc : ∀ j < ncols [(0, [(1 : ℚ), 2]), (1, [2, 3]), (2, [4, 5])],
      id (svar ((colAt [(0, [(1 : ℚ), 2]), (1, [2, 3]), (2, [4, 5])] j).take 2))
        ≠ 0 := by
    intro j hj
    have hj2 : j < 2 := by simpa [ncols] using hj
    interval_cases j <;> norm_num [colAt, svar, listMean]
  refine ⟨⟨v, hv1, by simpa using hv2, ?_, ?_⟩, ⟨c, hc1, ?_, ?_⟩,
    ⟨sh, hs1, ?_, ?_⟩⟩
  · have h := hv4 0 (by omega) (by norm_num)
    rw [h]
    rfl
  · obtain ⟨y0, hy0⟩ := hv6 (by omega) 0
    obtain ⟨y1, hy1⟩ := hv6 (by omega) 1
    refine ⟨y0, y1, ?_⟩
    have h5 := hv5 (by omega)
    rw [show (2 : ℕ) - 1 = 1 from rfl] at h5
    rw [h5]
    have hrw : (List.range
        (ncols [(0, [(1 : ℚ), 2]), (1, [2, 3]), (2, [4, 5])])).map (fun j =>
          (stdO id ((colAt [(0, [(1 : ℚ), 2]), (1, [2, 3]), (2, [4, 5])] j).take 2)).map
            (fun x => x * id 252))
        = [some y0, some y1] := by
      rw [show ncols [(0, [(1 : ℚ), 2]), (1, [2, 3]), (2, [4, 5])] = 2 from rfl,
        show List.range 2 = [0, 1] from rfl]
      simp only [List.map_cons, List.map_nil]
      rw [hy0, hy1]
    rw [hrw]
    rfl
  · have h := hc4 0 (by omega) (by norm_num)
    rw [h]
    rfl
  · obtain ⟨y, hy⟩ := hc6 (by omega) hvarc
    refine ⟨y, ?_⟩
    have h5 := hc5 (by omega)
    rw [show (2 : ℕ) - 1 = 1 from rfl] at h5
    rw [h5, hy]
    rfl
  · have h := hs4 0 (by omega) (by norm_num)
    rw [h]
    rfl
  · have hnz : id (svar (([(0, (1 : ℚ)), (1, 2), (2, 3)].map
        (fun r => r.2 - 0 / 252)).take 2)) ≠ 0 := by
      norm_num [svar, listMean]
    obtain ⟨y, hy⟩ := hs6 (by omega) hnz
    refine ⟨y, ?_⟩
    have h5 := hs5 (by omega)
    rw [show (2 : ℕ) - 1 = 1 from rfl] at h5
    rw [h5, hy]
    rfl

theorem scov_self (xs : List ℚ) : scov xs xs = svar xs := by
  rw [scov, svar, List.zipWith_same]
  congr 1
  congr 1
  apply List.map_congr_left
  intro a _
  ring

theorem corrCell_short {sqrtq : ℚ → ℚ} {xs ys : List ℚ} (h : xs.length ≤ 1) :
    corrCell sqrtq xs ys = none := by
  rw [corrCell, stdO, if_pos h]

theorem meanO_two_none : meanO [(none : Option ℚ), none] = none := rfl

theorem meanO_two_some (q : ℚ) : meanO [some q, some q] = some q := by
  rw [meanO]
  simp only [List.filterMap_cons, id, List.filterMap_nil]
  norm_num

theorem colAt_dup {f : List (ℕ × List ℚ)} (hdup : ∀ r ∈ f, ∃ x, r.2 = [x, x]) :
    colAt f 1 = colAt f 0 := by
  apply List.map_congr_left
  intro r hr
  obtain ⟨x, hx⟩ := hdup r hr
  rw [hx]
  rfl

/-- C6: rolling correlation averages the full pairwise correlation matrix
across columns, diagonal included; consequently, on a two-column return
panel whose columns are identical, every defined value of the output
series is exactly 1 — in exact arithmetic, for any square-root stand-in
that is exact on the window variances encountered. -/
theorem c6_identical_columns (sqrtq : ℚ → ℚ) (w : ℕ) (f : List (ℕ × List ℚ))
    (hne : f ≠ []) (hdup : ∀ r ∈ f, ∃ x, r.2 = [x, x]) (hw : w ≤ f.length)
    (hsq : ∀ i, w ≤ i + 1 → i < f.length →
      sqrtq (svar (windowSlice w i (colAt f 0)))
        * sqrtq (svar (windowSlice w i (colAt f 0)))
        = svar (windowSlice w i (colAt f 0))) :
    ∃ out, calculate_rolling_correlation sqrtq f w = .ok out
      ∧ ∀ i d v, out.get? i = some (d, some v) → v = 1 := by
  have hrows : AllRowsNonempty f := by
    intro r hr
    obtain ⟨x, hx⟩ := hdup r hr
    rw [hx]
    simp
  have hf : pdEmptyF f = false := pdEmptyF_eq_false hne hrows
  have hc : ncols f = 2 := by
    obtain ⟨r, rest, hcons⟩ := List.exists_cons_of_ne_nil hne
    obtain ⟨x, hx⟩ := hdup r (by rw [hcons]; exact List.mem_cons_self r rest)
    rw [hcons, ncols]
    simp [hx]
  have hok : calculate_rolling_correlation sqrtq f w
      = .ok ((List.range f.length).map (fun i =>
        (dateAt f i,
          if w ≤ i + 1 then
            meanO ((List.range (ncols f)).map (fun j =>
              meanO ((List.range (ncols f)).map (fun k =>
                corrCell sqrtq (windowSlice w i (colAt f k))
                  (windowSlice w i (colAt f j))))))
          else none))) := by
    rw [calculate_rolling_correlation, hf]
    rw [if_neg (by simp)]
    rw [if_neg (by rw [hc]; omega)]
    rw [if_neg (Nat.not_lt.mpr hw)]
  refine ⟨_, hok, ?_⟩
  intro i d v hval
  have hi : i < f.length := by
    have := (List.get?_eq_some.mp hval).1
    simpa using this
  rw [rangeMap_get? _ _ hi] at hval
  have hbody := congrArg Prod.snd (Option.some_inj.mp hval)
  simp only at hbody
  by_cases hwi : w ≤ i + 1
  · rw [if_pos hwi, hc] at hbody
    rw [show List.range 2 = [0, 1] from rfl] at hbody
    simp only [List.map_cons, List.map_nil] at hbody
    rw [colAt_dup hdup] at hbody
    have hWlen : (windowSlice w i (colAt f 0)).length = w :=
      windowSlice_length (by rw [colAt_length]; omega) hwi
    by_cases hw1 : w ≤ 1
    · rw [corrCell_short (by omega)] at hbody
      rw [meanO_two_none, meanO_two_none] at hbody
      exact absurd hbody (by simp)
    · rw [corrCell_eval (by omega) (by omega)] at hbody
      rw [hsq i hwi hi] at hbody
      by_cases hv0 : svar (windowSlice w i (colAt f 0)) = 0
      · rw [if_pos hv0, meanO_two_none, meanO_two_none] at hbody
        exact absurd hbody (by simp)
      · rw [if_neg hv0, scov_self,
          div_self hv0, meanO_two_some, meanO_two_some] at hbody
        exact (Option.some_inj.mp hbody).symm
  · rw [if_neg hwi] at hbody
    exact absurd hbody (by simp)

/-- C6 witness: the panel with two identical columns `[0, 1, 2]`, window
3, and a square-root stand-in exact on the encountered variance 1: the
only defined output value is exactly 1. -/
theorem c6_witness :
    ∃ out, calculate_rolling_correlation (fun q => if q = 1 then 1 else 0)
        [(0, [0, 0]), (1, [1, 1]), (2, [2, 2])] 3 = .ok out
      ∧ ∀ i d v, out.get? i = some (d, some v) → v = 1 :=
  c6_identical_columns (fun q => if q = 1 then 1 else 0) 3
    [(0, [0, 0]), (1, [1, 1]), (2, [2, 2])] (by simp)
    (by intro r hr; fin_cases hr <;> exact ⟨_, rfl⟩)
    (by norm_num)
    (by
      intro i h1 h2
      have h2' : i < 3 := by simpa using h2
      have hi2 : i = 2 := by omega
      subst hi2
      norm_num [windowSlice, colAt, svar, listMean])

end Bubble
